import Mathlib

/-!
Shallow embedding of the `dom-flip` FLIP animation element
(main module `src/unnamed/part_000` together with `src/utils.ts`).

JavaScript numbers are modelled as exact rationals extended with the
three non-finite IEEE values (`NaN`, `Infinity`, `-Infinity`); the code
under verification only ever produces non-finite values through
`parseFloat` on unparsable input and through division by zero, both of
which the model reproduces.  Number-to-string conversion is modelled
exactly on values with a finite decimal expansion (every value the
program manipulates in the verified scenarios is of that form).
-/

attribute [local semireducible] Rat.add Rat.mul Rat.sub Rat.inv Rat.ofScientific

namespace DomFlip

/-- Model of a JavaScript number: a finite rational or one of the three
IEEE special values. -/
inductive JSNum where
  | fin (q : ℚ)
  | posInf
  | negInf
  | nan
deriving DecidableEq

namespace JSNum

/-- JavaScript subtraction on the number model. -/
def sub : JSNum → JSNum → JSNum
  | nan, _ => nan
  | _, nan => nan
  | posInf, posInf => nan
  | posInf, _ => posInf
  | negInf, negInf => nan
  | negInf, _ => negInf
  | fin _, posInf => negInf
  | fin _, negInf => posInf
  | fin a, fin b => fin (a - b)

/-- JavaScript `Math.abs` on the number model. -/
def jsabs : JSNum → JSNum
  | nan => nan
  | posInf => posInf
  | negInf => posInf
  | fin a => fin |a|

/-- JavaScript `<=` on the number model: any comparison involving NaN is
false. -/
def jsle : JSNum → JSNum → Bool
  | nan, _ => false
  | _, nan => false
  | negInf, _ => true
  | _, posInf => true
  | posInf, _ => false
  | fin a, fin b => a ≤ b
  | fin _, negInf => false

/-- JavaScript division on the number model.  Rationals have no signed
zero, so a zero dividend is treated as `+0` (the only behaviour the
program can produce, since its divisors come from `parseFloat`). -/
def div : JSNum → JSNum → JSNum
  | nan, _ => nan
  | _, nan => nan
  | posInf, posInf => nan
  | posInf, negInf => nan
  | negInf, posInf => nan
  | negInf, negInf => nan
  | posInf, fin b => if 0 ≤ b then posInf else negInf
  | negInf, fin b => if 0 ≤ b then negInf else posInf
  | fin _, posInf => fin 0
  | fin _, negInf => fin 0
  | fin a, fin b =>
      if b = 0 then (if a = 0 then nan else if 0 < a then posInf else negInf)
      else fin (a / b)

end JSNum

/-- Smallest exponent `k` (starting the search at the first argument of
the recursion, with explicit fuel) such that `d` divides `10 ^ k`. -/
def find10 (d : ℕ) : ℕ → ℕ → Option ℕ
  | _, 0 => none
  | k, fuel + 1 => if d ∣ 10 ^ k then some k else find10 d (k + 1) fuel

/-- Left-pads a string with zeros up to the given length. -/
def padZeros (s : String) (len : ℕ) : String :=
  if s.length < len then String.mk (List.replicate (len - s.length) '0') ++ s
  else s

/-- ECMAScript `ToString` on a finite number value, modelled exactly for
values with a finite decimal expansion (the exponent forms used for
magnitudes outside `[1e-6, 1e21)` are not reached by the program). -/
def qToString (q : ℚ) : String :=
  if q.den = 1 then toString q.num
  else
    match find10 q.den 1 64 with
    | some k =>
        let sign := if q.num < 0 then "-" else ""
        let m := q.num.natAbs * 10 ^ k / q.den
        let s := padZeros (toString m) (k + 1)
        sign ++ s.take (s.length - k) ++ "." ++ s.drop (s.length - k)
    | none => toString q.num ++ "/" ++ toString q.den

/-- ECMAScript `ToString` applied to a number (`String(x)` in the
source). -/
def jsNumToString : JSNum → String
  | .fin q => qToString q
  | .posInf => "Infinity"
  | .negInf => "-Infinity"
  | .nan => "NaN"

/-- Numeric value of a digit list, most significant digit first. -/
def digitsVal (ds : List Char) : ℚ :=
  ds.foldl (fun acc c => acc * 10 + (c.toNat - 48 : ℕ)) 0

/-- Ten to an integer power, as a rational. -/
def pow10 (e : ℤ) : ℚ :=
  if 0 ≤ e then (10 : ℚ) ^ e.toNat else 1 / (10 : ℚ) ^ (-e).toNat

/-- Strips the given literal from the front of the input, or fails. -/
def stripLit : List Char → List Char → Option (List Char)
  | [], cs => some cs
  | _ :: _, [] => none
  | l :: ls, c :: cs => if c = l then stripLit ls cs else none

/-- Exponent part of a `parseFloat` literal: consumed only when a
well-formed `e`/`E` exponent with at least one digit follows. -/
def parseExponent (cs : List Char) : ℤ :=
  match cs with
  | 'e' :: r | 'E' :: r =>
      match r with
      | '-' :: r2 =>
          let ds := r2.takeWhile Char.isDigit
          if ds = [] then 0 else -(digitsVal ds).num
      | '+' :: r2 =>
          let ds := r2.takeWhile Char.isDigit
          if ds = [] then 0 else (digitsVal ds).num
      | _ =>
          let ds := r.takeWhile Char.isDigit
          if ds = [] then 0 else (digitsVal ds).num
  | _ => 0

/-- Unsigned part of ECMAScript `parseFloat`: `Infinity`, or decimal
digits with optional fraction and exponent; `NaN` when no digit can be
consumed. -/
def parseFloatUnsigned (cs : List Char) (neg : Bool) : JSNum :=
  match stripLit ['I', 'n', 'f', 'i', 'n', 'i', 't', 'y'] cs with
  | some _ => if neg then .negInf else .posInf
  | none =>
      let ds1 := cs.takeWhile Char.isDigit
      let r1 := cs.dropWhile Char.isDigit
      let frac :=
        match r1 with
        | '.' :: r2 => some (r2.takeWhile Char.isDigit, r2.dropWhile Char.isDigit)
        | _ => none
      let ds2 := match frac with | some (d, _) => d | none => []
      let rest := match frac with | some (_, r) => r | none => r1
      if ds1 = [] ∧ ds2 = [] then .nan
      else
        let mantissa : ℚ := digitsVal ds1 + digitsVal ds2 / 10 ^ ds2.length
        let signed : ℚ := if neg then -mantissa else mantissa
        .fin (signed * pow10 (parseExponent rest))

/-- Model of ECMAScript `Number.parseFloat`. -/
def parseFloat (s : String) : JSNum :=
  let cs := s.data.dropWhile Char.isWhitespace
  match cs with
  | '-' :: r => parseFloatUnsigned r true
  | '+' :: r => parseFloatUnsigned r false
  | r => parseFloatUnsigned r false

/-- Default tolerance of `isCloseTo` (`1e-5` in `src/utils.ts`). -/
def defaultEpsilon : ℚ := 1 / 100000

/-- Model of `isCloseTo` from `src/utils.ts`, at its default epsilon
(every call site in the program uses the default):
`Math.abs(actual - target) <= epsilon`. -/
def isCloseTo (actual target : JSNum) : Bool :=
  (JSNum.sub actual target).jsabs.jsle (.fin defaultEpsilon)

/-- Model of `generateTransformString` from `src/utils.ts`. -/
def generateTransformString (dx dy sx sy : JSNum) : String :=
  "translate(" ++ jsNumToString dx ++ "px, " ++ jsNumToString dy ++
    "px) scale(" ++ jsNumToString sx ++ ", " ++ jsNumToString sy ++ ")"

/-- Consumes one expected character from the input. -/
def expectChar (c : Char) : List Char → Option (List Char)
  | [] => none
  | x :: xs => if x = c then some xs else none

/-- Greedy token of the shape `-?\d*\.?\d+` without the sign: digits with
an optional fraction part; the trailing dot is kept only when followed by
at least one digit, matching the regex backtracking behaviour given that
the pattern continues with a comma. -/
def numTokUnsigned (cs : List Char) : Option (List Char × List Char) :=
  let ds1 := cs.takeWhile Char.isDigit
  let r1 := cs.dropWhile Char.isDigit
  match r1 with
  | c :: r2 =>
      if c = '.' then
        let ds2 := r2.takeWhile Char.isDigit
        if ds2 = [] then (if ds1 = [] then none else some (ds1, r1))
        else some (ds1 ++ '.' :: ds2, r2.dropWhile Char.isDigit)
      else if ds1 = [] then none else some (ds1, r1)
  | [] => if ds1 = [] then none else some (ds1, r1)

/-- Greedy token of the shape `-?\d*\.?\d+` (a capture group of
`transformRegex`). -/
def numTok : List Char → Option (List Char × List Char)
  | '-' :: cs => (numTokUnsigned cs).map (fun p => ('-' :: p.1, p.2))
  | cs => numTokUnsigned cs

/-- Parses `,\s*0` (a separator-plus-zero slot of `transformRegex`),
returning the whitespace run and the rest. -/
def sepZero (cs : List Char) : Option (List Char × List Char) :=
  match expectChar ',' cs with
  | none => none
  | some cs1 =>
      let w := cs1.takeWhile Char.isWhitespace
      let cs2 := cs1.dropWhile Char.isWhitespace
      match expectChar '0' cs2 with
      | none => none
      | some cs3 => some (w, cs3)

/-- The literal head of `transformRegex`. -/
def matrixLit : List Char := ['m', 'a', 't', 'r', 'i', 'x', '(']

/-- Attempts to match `transformRegex` at the start of the input,
returning the two capture groups (the scale components).  The regex is
`matrix\((-?\d*\.?\d+),\s*0,\s*0,\s*(-?\d*\.?\d+),\s*0,\s*0\)` from
`src/unnamed/part_000`; at every step the greedy choice is forced by the
following literal, so a deterministic parse is equivalent. -/
def matchAt (cs : List Char) : Option (List Char × List Char) :=
  match stripLit matrixLit cs with
  | none => none
  | some cs0 =>
  match numTok cs0 with
  | none => none
  | some (t1, cs1) =>
  match sepZero cs1 with
  | none => none
  | some (_, cs2) =>
  match sepZero cs2 with
  | none => none
  | some (_, cs3) =>
  match expectChar ',' cs3 with
  | none => none
  | some cs4 =>
  match numTok (cs4.dropWhile Char.isWhitespace) with
  | none => none
  | some (t2, cs5) =>
  match sepZero cs5 with
  | none => none
  | some (_, cs6) =>
  match sepZero cs6 with
  | none => none
  | some (_, cs7) =>
  match expectChar ')' cs7 with
  | none => none
  | some _ => some (t1, t2)

/-- Unanchored search of `transformRegex`: tries to match at every
position, left to right, like `String.prototype.match`. -/
def transformMatch : List Char → Option (List Char × List Char)
  | [] => none
  | c :: cs =>
      match matchAt (c :: cs) with
      | some r => some r
      | none => transformMatch cs

/-- The scale tokens extracted in `_collectChildData`: the two capture
groups of the transform regex when it matches, the `'1.0'` defaults
otherwise. -/
def extractScaleTokens (transform : String) : String × String :=
  match transformMatch transform.data with
  | some (t1, t2) => (String.mk t1, String.mk t2)
  | none => ("1.0", "1.0")

/-- The `transitionClassName` constant of `src/unnamed/part_000`. -/
def transitionClassName : String := "dom-flip-transitioning"

/-- Metadata collected per child (`ChildData` in the source).  `top` and
`left` come from bounding-rectangle reads and are always finite; the
other three fields are `parseFloat` results. -/
structure ChildData where
  top : ℚ
  left : ℚ
  opacity : JSNum
  scaleX : JSNum
  scaleY : JSNum
deriving DecidableEq

/-- Model of a slotted DOM node as the program observes it: whether it
is an `HTMLElement`, the value of the identity attribute (`none` when
absent), the absolute bounding-rectangle position, and the computed
`transform` and `opacity` strings.  `ref` identifies the element handle
so that style writes can be attributed to it. -/
structure Elem where
  ref : ℕ
  isHTML : Bool
  id : Option String
  top : ℚ
  left : ℚ
  transform : String
  opacity : String
deriving DecidableEq

/-- The map from identity to element handle and child data
(`Map<string, [HTMLElement, ChildData]>`), as an insertion-ordered
association list. -/
def SnapshotMap : Type := List (String × ℕ × ChildData)

instance : DecidableEq SnapshotMap := by
  unfold SnapshotMap
  infer_instance

/-- JavaScript `Map.prototype.get`. -/
def mapGet (m : SnapshotMap) (k : String) : Option (ℕ × ChildData) :=
  match m with
  | [] => none
  | (k1, v) :: rest => if k1 = k then some v else mapGet rest k

/-- JavaScript `Map.prototype.set`: updates in place when the key
exists, appends otherwise. -/
def mapSet (m : SnapshotMap) (k : String) (v : ℕ × ChildData) : SnapshotMap :=
  match m with
  | [] => [(k, v)]
  | (k1, v1) :: rest => if k1 = k then (k, v) :: rest else (k1, v1) :: mapSet rest k v

/-- Truthiness test of `getAttribute`'s result: `null` and the empty
string are both falsy (`if (!id) continue`). -/
def strFalsy : Option String → Bool
  | none => true
  | some s => s = ""

/-- The `ChildData` record built for one child in `_collectChildData`:
container-relative position, `parseFloat(styles.opacity || '1')`, and
the parsed scale tokens. -/
def childDataOf (bT bL : ℚ) (e : Elem) : ChildData :=
  let toks := extractScaleTokens e.transform
  ⟨e.top - bT, e.left - bL,
    parseFloat (if e.opacity = "" then "1" else e.opacity),
    parseFloat toks.1, parseFloat toks.2⟩

/-- The collection loop of `_collectChildData`, iterating the assigned
nodes in order and `set`ting into the accumulator: non-`HTMLElement`
nodes and children with a falsy identity attribute are skipped. -/
def collectInto (bT bL : ℚ) (m : SnapshotMap) : List Elem → SnapshotMap
  | [] => m
  | e :: rest =>
      if e.isHTML = false then collectInto bT bL m rest
      else
        match e.id with
        | none => collectInto bT bL m rest
        | some i =>
            if i = "" then collectInto bT bL m rest
            else collectInto bT bL (mapSet m i (e.ref, childDataOf bT bL e)) rest

/-- Model of `_collectChildData`: starts from an empty map. -/
def collectChildData (bT bL : ℚ) (children : List Elem) : SnapshotMap :=
  collectInto bT bL [] children

/-- A single DOM style write performed by the animation cycle. -/
inductive Write where
  | classRemove (ref : ℕ) (cls : String)
  | classAdd (ref : ℕ) (cls : String)
  | setOpacity (ref : ℕ) (v : String)
  | setTransform (ref : ℕ) (v : String)
deriving DecidableEq

/-- The skip test of `_animateChangedElements`: the child is treated as
unchanged iff the position deltas are close to 0 and both scale ratios
are close to 1. -/
def shouldSkip (dT dL : ℚ) (old n : ChildData) : Bool :=
  isCloseTo (.fin dT) (.fin 0) && isCloseTo (.fin dL) (.fin 0) &&
    isCloseTo (JSNum.div old.scaleX n.scaleX) (.fin 1) &&
    isCloseTo (JSNum.div old.scaleY n.scaleY) (.fin 1)

/-- The synchronous revert-phase writes for one changed child, in source
order: remove the transition class, write the old opacity, write the
reverting transform. -/
def revertWrites (ref : ℕ) (dT dL : ℚ) (old : ChildData) : List Write :=
  [Write.classRemove ref transitionClassName,
   Write.setOpacity ref (jsNumToString old.opacity),
   Write.setTransform ref (generateTransformString (.fin dL) (.fin dT) old.scaleX old.scaleY)]

/-- The deferred play-phase writes for one changed child, in source
order (`src/unnamed/part_000` lines 244-249): write the new opacity,
write the identity-translation transform, then add the transition
class. -/
def playWrites (ref : ℕ) (n : ChildData) : List Write :=
  [Write.setOpacity ref (jsNumToString n.opacity),
   Write.setTransform ref (generateTransformString (.fin 0) (.fin 0) n.scaleX n.scaleY),
   Write.classAdd ref transitionClassName]

/-- Performs a sequence of writes against fallible host primitives:
`faulty w` means the write primitive throws on `w`.  On a throw the
writes already performed remain and the exception propagates
(`Except.error`); the source has no try/catch anywhere. -/
def doWrites (faulty : Write → Bool) (log : List Write) : List Write → Except (List Write) (List Write)
  | [] => .ok log
  | w :: ws => if faulty w then .error log else doWrites faulty (log ++ [w]) ws

/-- The per-child loop of `_animateChangedElements` over the entries of
the freshly collected map.  Returns the synchronous writes performed,
the scheduled animation-frame callbacks (as their write lists), and
whether the loop ran to completion (`false` when a write primitive
threw, aborting the loop). -/
def animateLoop (faulty : Write → Bool) (oldMap : SnapshotMap) :
    List (String × ℕ × ChildData) → List Write → List (List Write) →
      List Write × List (List Write) × Bool
  | [], log, rafs => (log, rafs, true)
  | (i, ref, n) :: rest, log, rafs =>
      match mapGet oldMap i with
      | none => animateLoop faulty oldMap rest log rafs
      | some (_, old) =>
          let dT := old.top - n.top
          let dL := old.left - n.left
          if shouldSkip dT dL old n then animateLoop faulty oldMap rest log rafs
          else
            match doWrites faulty log (revertWrites ref dT dL old) with
            | .error log2 => (log2, rafs, false)
            | .ok log2 => animateLoop faulty oldMap rest log2 (rafs ++ [playWrites ref n])

/-- Outcome of one animation cycle. -/
structure CycleOutcome where
  writes : List Write
  rafs : List (List Write)
  completed : Bool
  storedMap : SnapshotMap
deriving DecidableEq

/-- Model of `_animateChangedElements`: collect a fresh map, run the
diff loop over it, and, when the loop completes, replace the stored map
by the fresh one in a single assignment.  When a write primitive throws,
the exception propagates out of the method before the assignment, so the
stored map keeps its previous value. -/
def animateChangedElements (faulty : Write → Bool) (bT bL : ℚ)
    (children : List Elem) (oldMap : SnapshotMap) : CycleOutcome :=
  let newMap := collectChildData bT bL children
  let (log, rafs, ok) := animateLoop faulty oldMap newMap [] []
  ⟨log, rafs, ok, if ok then newMap else oldMap⟩

/-- A fault assignment under which no write primitive ever throws. -/
def noFault : Write → Bool := fun _ => false

/-- Observable scheduler state of a `DomFlip` instance: the `active`
and `_animationEnqueued` fields, the number of scheduled-but-unfired
`batchCallback` closures, whether the mutation observer is currently
observing the children, the stored `_childData` map, and the cumulative
animation effects (pass count, synchronous writes, scheduled
animation-frame callbacks). -/
structure SchedState where
  active : Bool
  animationEnqueued : Bool
  pending : ℕ
  observing : Bool
  childData : SnapshotMap
  passes : ℕ
  writes : List Write
  rafs : List (List Write)
deriving DecidableEq

/-- Model of `_enqueueAnimateChangedElements` (a mutation-observer
signal): coalesce when already enqueued, otherwise set the flag and
schedule one deferred callback. -/
def enqueueStep (s : SchedState) : SchedState :=
  if s.animationEnqueued then s
  else ⟨s.active, true, s.pending + 1, s.observing, s.childData, s.passes, s.writes, s.rafs⟩

/-- Model of `_updateMutationObserver`: disconnect the observer, stop
when inactive, otherwise re-observe the children and enqueue a cycle. -/
def updateMutationObserver (s : SchedState) : SchedState :=
  let s1 : SchedState :=
    ⟨s.active, s.animationEnqueued, s.pending, false, s.childData, s.passes, s.writes, s.rafs⟩
  if s1.active = false then s1
  else
    enqueueStep
      ⟨s1.active, s1.animationEnqueued, s1.pending, true, s1.childData, s1.passes, s1.writes, s1.rafs⟩

/-- Model of the `active` setter: store the backing field and run
`_updateListeners`, whose observable effect on this state is
`_updateMutationObserver` (the event-listener juggling it also performs
is part of the signal-delivery plumbing, not of this state). -/
def setActive (s : SchedState) (b : Bool) : SchedState :=
  updateMutationObserver
    ⟨b, s.animationEnqueued, s.pending, s.observing, s.childData, s.passes, s.writes, s.rafs⟩

/-- Model of one scheduled `batchCallback` closure firing against the
ambient DOM `(bT, bL, children)`: clear `_animationEnqueued`, then run
`_animateChangedElements` unconditionally (the closure body reads no
flag). -/
def fireBatch (bT bL : ℚ) (children : List Elem) (s : SchedState) : SchedState :=
  if s.pending = 0 then s
  else
    let out := animateChangedElements noFault bT bL children s.childData
    ⟨s.active, false, s.pending - 1, s.observing, out.storedMap, s.passes + 1,
      s.writes ++ out.writes, s.rafs ++ out.rafs⟩

/-- Applies `n` change signals in sequence. -/
def signalN : ℕ → SchedState → SchedState
  | 0, s => s
  | n + 1, s => signalN n (enqueueStep s)

/-- Replaces only the `active` field. -/
def withActive (s : SchedState) (b : Bool) : SchedState :=
  ⟨b, s.animationEnqueued, s.pending, s.observing, s.childData, s.passes, s.writes, s.rafs⟩

/-- Replaces only the `observing` field. -/
def withObserving (s : SchedState) (b : Bool) : SchedState :=
  ⟨s.active, s.animationEnqueued, s.pending, b, s.childData, s.passes, s.writes, s.rafs⟩

/-- Scenario A child "X" before the move: `top=0`, `left=0`, no
transform, full opacity. -/
def childXBefore : Elem := ⟨0, true, some "X", 0, 0, "none", "1"⟩

/-- Scenario A child "X" after the move to `left=100`. -/
def childXAfter : Elem := ⟨0, true, some "X", 0, 100, "none", "1"⟩

/-- The snapshot map collected before the Scenario A move. -/
def mapBefore : SnapshotMap := collectChildData 0 0 [childXBefore]

/-- The Scenario A animation cycle: diff of the moved DOM against the
stored snapshot. -/
def scenarioA : CycleOutcome := animateChangedElements noFault 0 0 [childXAfter] mapBefore

/-- Two-child DOM, first positions: "a" at `left=0`, "b" at `left=50`. -/
def childrenAB0 : List Elem :=
  [⟨0, true, some "a", 0, 0, "none", "1"⟩, ⟨1, true, some "b", 0, 50, "none", "1"⟩]

/-- Two-child DOM after both children moved: "a" to `left=100`, "b" to
`left=150`. -/
def childrenAB1 : List Elem :=
  [⟨0, true, some "a", 0, 100, "none", "1"⟩, ⟨1, true, some "b", 0, 150, "none", "1"⟩]

/-- Stored snapshot of the two-child DOM at its first positions. -/
def mapAB : SnapshotMap := collectChildData 0 0 childrenAB0

/-- A host in which the class-list write on element `0` (child "a")
throws. -/
def faultOnA : Write → Bool := fun w => w = Write.classRemove 0 transitionClassName

/-- The two-child cycle under the faulty host: child "a" is processed
first and its first revert write throws. -/
def cycleFaultA : CycleOutcome := animateChangedElements faultOnA 0 0 childrenAB1 mapAB

/-- The same two-child cycle under a fault-free host. -/
def cycleNoFault : CycleOutcome := animateChangedElements noFault 0 0 childrenAB1 mapAB

/-- Initial scheduler state for the temporal scenarios: active, idle,
holding the Scenario A "before" snapshot. -/
def s0 : SchedState := ⟨true, false, 0, true, mapBefore, 0, [], []⟩

/-- Scenario D run: a signal schedules a cycle, `active` is set to false
while it is pending, then the pending callback fires against the moved
DOM. -/
def scenarioD : SchedState := fireBatch 0 0 [childXAfter] (setActive (enqueueStep s0) false)

/-- Child data at a given position with unit scales and full opacity. -/
def unitAt (t l : ℚ) : ChildData := ⟨t, l, .fin 1, .fin 1, .fin 1⟩
/-- A child whose computed opacity string is not parsable as a number. -/
def childBadOpacity : Elem := ⟨2, true, some "Z", 0, 0, "none", "abc"⟩
/-- The exact character-level shape that a successful transform-regex
match consumes: the literal `matrix(`, a numeric token, then literal-`0`
skew and translation slots separated by commas and whitespace, the
second numeric token, and the closing parenthesis, followed by the
remainder of the input. -/
def matrixShape (t1 t2 w1 w2 w3 w4 w5 rest : List Char) : List Char :=
  matrixLit ++ (t1 ++ (',' :: (w1 ++ ('0' :: (',' :: (w2 ++ ('0' :: (',' :: (w3 ++ (t2 ++
    (',' :: (w4 ++ ('0' :: (',' :: (w5 ++ ('0' :: (')' :: rest)))))))))))))))))

lemma doWrites_noFault (ws : List Write) : ∀ log, doWrites noFault log ws = .ok (log ++ ws) := by
  induction ws with
  | nil => intro log; simp [doWrites]
  | cons w ws ih => intro log; simp [doWrites, noFault, ih]

lemma animateLoop_noFault (oldMap : SnapshotMap) (entries : List (String × ℕ × ChildData)) :
    ∀ log rafs, (animateLoop noFault oldMap entries log rafs).2.2 = true := by
  induction entries with
  | nil => intro log rafs; simp [animateLoop]
  | cons e rest ih =>
      intro log rafs
      obtain ⟨i, ref, n⟩ := e
      simp only [animateLoop]
      cases mapGet oldMap i with
      | none => exact ih log rafs
      | some v =>
          obtain ⟨r0, old⟩ := v
          by_cases hskip : shouldSkip (old.top - n.top) (old.left - n.left) old n
          · simp [hskip, ih]
          · simp [hskip, doWrites_noFault, ih]

lemma animate_noFault (bT bL : ℚ) (ch : List Elem) (old : SnapshotMap) :
    (animateChangedElements noFault bT bL ch old).completed = true ∧
      (animateChangedElements noFault bT bL ch old).storedMap = collectChildData bT bL ch := by
  unfold animateChangedElements
  have h := animateLoop_noFault old (collectChildData bT bL ch) [] []
  rcases ht : animateLoop noFault old (collectChildData bT bL ch) [] [] with ⟨log, rafs, ok⟩
  rw [ht] at h
  simp at h
  subst h
  simp [ht]

lemma animate_abort (faulty : Write → Bool) (bT bL : ℚ) (ch : List Elem) (old : SnapshotMap) :
    (animateChangedElements faulty bT bL ch old).completed = false →
      (animateChangedElements faulty bT bL ch old).storedMap = old := by
  unfold animateChangedElements
  rcases ht : animateLoop faulty old (collectChildData bT bL ch) [] [] with ⟨log, rafs, ok⟩
  cases ok <;> simp [ht]

/-- C1: the claim asserts that for the `left: 0 → 100` move the revert
phase writes `translate(100px, 0px) scale(1, 1)`.  It does not: the
delta is `dLeft = previous.left - current.left = -100`, so the revert
phase writes `translate(-100px, 0px) scale(1, 1)`; the claimed string is
never written in the cycle. -/
theorem scenarioA_revert_claimed_string_false :
    scenarioA.writes =
      [Write.classRemove 0 transitionClassName,
       Write.setOpacity 0 "1",
       Write.setTransform 0 "translate(-100px, 0px) scale(1, 1)"] ∧
    Write.setTransform 0 "translate(100px, 0px) scale(1, 1)" ∉ scenarioA.writes ∧
    (∀ cb ∈ scenarioA.rafs,
        Write.setTransform 0 "translate(100px, 0px) scale(1, 1)" ∉ cb) := by
  refine ⟨by decide, by decide, ?_⟩
  decide

/-- C1 (amended): in the Scenario A move the revert phase writes
`translate(-100px, 0px) scale(1, 1)`, the play phase writes
`translate(0px, 0px) scale(1, 1)`, and every opacity write in either
phase writes "1". -/
theorem scenarioA_two_phase_writes :
    scenarioA.completed = true ∧
    scenarioA.writes =
      [Write.classRemove 0 transitionClassName,
       Write.setOpacity 0 "1",
       Write.setTransform 0 "translate(-100px, 0px) scale(1, 1)"] ∧
    scenarioA.rafs =
      [[Write.setOpacity 0 "1",
        Write.setTransform 0 "translate(0px, 0px) scale(1, 1)",
        Write.classAdd 0 transitionClassName]] := by
  decide

/-- C3: the claim asserts that a style-write failure on one child does
not abort the processing of the remaining children and that the stored
map is still replaced.  It does: with children "a" and "b" both moved
and the class-list write on "a" throwing, the cycle performs no write at
all for "b" (which the fault-free cycle animates), and the stored map is
not replaced. -/
theorem write_failure_aborts_cycle :
    cycleFaultA.writes = [] ∧ cycleFaultA.rafs = [] ∧
    cycleFaultA.completed = false ∧
    cycleFaultA.storedMap = mapAB ∧
    mapAB ≠ collectChildData 0 0 childrenAB1 ∧
    Write.setTransform 1 "translate(-100px, 0px) scale(1, 1)" ∈ cycleNoFault.writes := by
  decide

/-- C3 (amended): the source has no try/catch, so a style-write failure
while processing one child propagates out of the loop: the remaining
children are neither diffed nor animated in that cycle, and the stored
SnapshotMap keeps its previous value (it is only replaced when the loop
runs to completion). -/
theorem write_failure_abort_semantics :
    (∀ (faulty : Write → Bool) (bT bL : ℚ) (ch : List Elem) (old : SnapshotMap),
        (animateChangedElements faulty bT bL ch old).completed = false →
          (animateChangedElements faulty bT bL ch old).storedMap = old) ∧
    cycleFaultA.writes = [] ∧ cycleFaultA.rafs = [] ∧ cycleFaultA.storedMap = mapAB := by
  exact ⟨animate_abort, by decide, by decide, by decide⟩

/-- C3 witness: the abort fact applied to the concrete faulty cycle. -/
theorem write_failure_abort_semantics_witness :
    (animateChangedElements faultOnA 0 0 childrenAB1 mapAB).storedMap = mapAB :=
  write_failure_abort_semantics.1 faultOnA 0 0 childrenAB1 mapAB (by decide)

/-- C6: every fault-free animation cycle replaces the stored map
wholesale by the freshly collected one in a single assignment, whether
or not any child was animated, and an identity absent from the fresh
collection is absent from the stored map after the cycle. -/
theorem snapshot_replaced_wholesale (bT bL : ℚ) (ch : List Elem) (old : SnapshotMap) :
    (animateChangedElements noFault bT bL ch old).completed = true ∧
    (animateChangedElements noFault bT bL ch old).storedMap = collectChildData bT bL ch ∧
    (∀ i, mapGet (collectChildData bT bL ch) i = none →
        mapGet (animateChangedElements noFault bT bL ch old).storedMap i = none) := by
  obtain ⟨h1, h2⟩ := animate_noFault bT bL ch old
  exact ⟨h1, h2, fun i hi => by rw [h2]; exact hi⟩

/-- C6 witness: after a cycle against a DOM containing only "X", an
identity "Y" present in the previous map is gone from the stored map. -/
theorem snapshot_replaced_wholesale_witness :
    (animateChangedElements noFault 0 0 [childXAfter]
        [("Y", 7, ⟨3, 4, .fin 1, .fin 1, .fin 1⟩)]).storedMap
      = collectChildData 0 0 [childXAfter] ∧
    mapGet (animateChangedElements noFault 0 0 [childXAfter]
        [("Y", 7, ⟨3, 4, .fin 1, .fin 1, .fin 1⟩)]).storedMap "Y" = none :=
  ⟨(snapshot_replaced_wholesale 0 0 [childXAfter] [("Y", 7, ⟨3, 4, .fin 1, .fin 1, .fin 1⟩)]).2.1,
   (snapshot_replaced_wholesale 0 0 [childXAfter]
      [("Y", 7, ⟨3, 4, .fin 1, .fin 1, .fin 1⟩)]).2.2 "Y" (by decide)⟩

/-- C8: the claim asserts that the play phase re-adds the marker class
before writing the final transform and opacity.  In the current
implementation (`src/unnamed/part_000` lines 244-249) the class is
re-added last: the first write of the Scenario A play callback is the
opacity write, not the class add. -/
theorem play_class_added_after_writes :
    scenarioA.rafs =
      [[Write.setOpacity 0 "1",
        Write.setTransform 0 "translate(0px, 0px) scale(1, 1)",
        Write.classAdd 0 transitionClassName]] ∧
    (scenarioA.rafs.headD []).head? ≠ some (Write.classAdd 0 transitionClassName) := by
  decide

/-- C8 (amended): every play-phase callback scheduled by an animation
cycle writes the final opacity, then the final transform
`translate(0px, 0px) scale(current.scaleX, current.scaleY)`, and only
then re-adds the marker class. -/
theorem play_phase_write_order (faulty : Write → Bool) (bT bL : ℚ) (ch : List Elem)
    (old : SnapshotMap) (cb : List Write) :
    cb ∈ (animateChangedElements faulty bT bL ch old).rafs →
      ∃ (ref : ℕ) (n : ChildData), cb =
        [Write.setOpacity ref (jsNumToString n.opacity),
         Write.setTransform ref (generateTransformString (.fin 0) (.fin 0) n.scaleX n.scaleY),
         Write.classAdd ref transitionClassName] := by
  have key : ∀ (entries : List (String × ℕ × ChildData)) (log : List Write)
      (rafs : List (List Write)),
      (∀ c ∈ rafs, ∃ ref n, c = playWrites ref n) →
      ∀ c ∈ (animateLoop faulty old entries log rafs).2.1, ∃ ref n, c = playWrites ref n := by
    intro entries
    induction entries with
    | nil => intro log rafs h c hc; exact h c hc
    | cons e rest ih =>
        intro log rafs h c hc
        obtain ⟨i, ref, n⟩ := e
        simp only [animateLoop] at hc
        cases hget : mapGet old i with
        | none =>
            rw [hget] at hc
            exact ih log rafs h c hc
        | some v =>
            obtain ⟨r0, oldD⟩ := v
            rw [hget] at hc
            by_cases hskip : shouldSkip (oldD.top - n.top) (oldD.left - n.left) oldD n
            · simp only [hskip, if_true] at hc
              exact ih log rafs h c hc
            · simp only [hskip, if_false] at hc
              cases hdw : doWrites faulty log (revertWrites ref (oldD.top - n.top)
                  (oldD.left - n.left) oldD) with
              | error log2 =>
                  rw [hdw] at hc
                  exact h c hc
              | ok log2 =>
                  rw [hdw] at hc
                  refine ih log2 (rafs ++ [playWrites ref n]) ?_ c hc
                  intro c2 hc2
                  rcases List.mem_append.mp hc2 with h2 | h2
                  · exact h c2 h2
                  · simp at h2
                    exact ⟨ref, n, h2⟩
  intro hcb
  have hr : (animateChangedElements faulty bT bL ch old).rafs =
      (animateLoop faulty old (collectChildData bT bL ch) [] []).2.1 := by
    simp only [animateChangedElements]
  rw [hr] at hcb
  obtain ⟨ref, n, hn⟩ := key (collectChildData bT bL ch) [] [] (by simp) cb hcb
  exact ⟨ref, n, by rw [hn]; rfl⟩

/-- C8 witness: the order fact applied to the Scenario A play
callback. -/
theorem play_phase_write_order_witness :
    ∃ (ref : ℕ) (n : ChildData),
      [Write.setOpacity 0 "1",
       Write.setTransform 0 "translate(0px, 0px) scale(1, 1)",
       Write.classAdd 0 transitionClassName] =
        [Write.setOpacity ref (jsNumToString n.opacity),
         Write.setTransform ref (generateTransformString (.fin 0) (.fin 0) n.scaleX n.scaleY),
         Write.classAdd ref transitionClassName] :=
  play_phase_write_order noFault 0 0 [childXAfter] mapBefore
    [Write.setOpacity 0 "1",
     Write.setTransform 0 "translate(0px, 0px) scale(1, 1)",
     Write.classAdd 0 transitionClassName] (by decide)

lemma enqueueStep_enqueued (s : SchedState) : (enqueueStep s).animationEnqueued = true := by
  unfold enqueueStep
  split
  · assumption
  · rfl

lemma enqueueStep_idem (s : SchedState) (h : s.animationEnqueued = true) : enqueueStep s = s := by
  unfold enqueueStep
  simp [h]

lemma signalN_of_enqueued (n : ℕ) (s : SchedState) (h : s.animationEnqueued = true) :
    signalN n s = s := by
  induction n generalizing s with
  | zero => rfl
  | succ n ih =>
      show signalN n (enqueueStep s) = s
      rw [enqueueStep_idem s h]
      exact ih s h

/-- C2: the claim asserts that setting `active` to false while a cycle
is pending makes that cycle perform no diff and issue no animation
writes.  It does not: the deferred `batchCallback` closure runs
`_animateChangedElements` unconditionally, so after a signal,
`active := false`, and the callback firing against the moved DOM, one
full pass runs and the revert writes are issued even though `active` is
false at fire time. -/
theorem pending_cycle_runs_when_inactive :
    (setActive (enqueueStep s0) false).active = false ∧
    (setActive (enqueueStep s0) false).pending = 1 ∧
    scenarioD.passes = 1 ∧
    scenarioD.writes =
      [Write.classRemove 0 transitionClassName,
       Write.setOpacity 0 "1",
       Write.setTransform 0 "translate(-100px, 0px) scale(1, 1)"] := by
  decide

/-- C2 (amended): the `active` flag plays no role in a pending cycle's
firing — firing commutes with any change of the flag — and setting
`active` to false only disconnects the observer (its whole effect on the
scheduler state is clearing `observing`): it neither cancels the pending
callback nor is consulted when that callback runs. -/
theorem fire_ignores_active_flag :
    (∀ (bT bL : ℚ) (ch : List Elem) (s : SchedState) (b : Bool),
        fireBatch bT bL ch (withActive s b) = withActive (fireBatch bT bL ch s) b) ∧
    (∀ s : SchedState, setActive s false = withObserving (withActive s false) false) := by
  constructor
  · intro bT bL ch s b
    cases s with
    | mk a e p o c pa w r =>
        by_cases hp : p = 0 <;> simp [fireBatch, withActive, hp]
  · intro s
    cases s with
    | mk a e p o c pa w r => rfl

lemma enqueueStep_idle (s : SchedState) (h : s.animationEnqueued = false) :
    enqueueStep s =
      ⟨s.active, true, s.pending + 1, s.observing, s.childData, s.passes, s.writes, s.rafs⟩ := by
  unfold enqueueStep
  simp [h]

/-- C5: starting idle (nothing enqueued, nothing pending), any burst of
`n ≥ 1` change signals before the deferred callback fires collapses to
one scheduled cycle: the first signal sets the flag and schedules the
callback, later signals change nothing, and the single firing clears the
flag, runs exactly one collection+diff pass, and leaves nothing pending
(a further firing without a new signal is a no-op). -/
theorem signals_coalesce_to_one_pass (s : SchedState) (n : ℕ)
    (hidle : s.animationEnqueued = false) (hpend : s.pending = 0) (hn : 1 ≤ n) :
    signalN n s = enqueueStep s ∧
    (enqueueStep s).animationEnqueued = true ∧
    (enqueueStep s).pending = 1 ∧
    (∀ (bT bL : ℚ) (ch : List Elem),
        (fireBatch bT bL ch (signalN n s)).passes = s.passes + 1 ∧
        (fireBatch bT bL ch (signalN n s)).animationEnqueued = false ∧
        (fireBatch bT bL ch (signalN n s)).pending = 0 ∧
        fireBatch bT bL ch (fireBatch bT bL ch (signalN n s)) =
          fireBatch bT bL ch (signalN n s)) := by
  have h1 : signalN n s = enqueueStep s := by
    obtain ⟨m, rfl⟩ : ∃ m, n = m + 1 := ⟨n - 1, by omega⟩
    show signalN m (enqueueStep s) = enqueueStep s
    exact signalN_of_enqueued m _ (enqueueStep_enqueued s)
  have he := enqueueStep_idle s hidle
  refine ⟨h1, enqueueStep_enqueued s, by rw [he, hpend], ?_⟩
  intro bT bL ch
  rw [h1, he, hpend]
  refine ⟨rfl, rfl, rfl, ?_⟩
  simp [fireBatch]

/-- C5 witness: the coalescing fact at the concrete idle state `s0` and
a burst of three signals. -/
theorem signals_coalesce_to_one_pass_witness :
    signalN 3 s0 = enqueueStep s0 ∧
    (fireBatch 0 0 [childXAfter] (signalN 3 s0)).passes = s0.passes + 1 :=
  ⟨(signals_coalesce_to_one_pass s0 3 (by decide) (by decide) (by decide)).1,
   ((signals_coalesce_to_one_pass s0 3 (by decide) (by decide) (by decide)).2.2.2 0 0
      [childXAfter]).1⟩

/-- C4: for children with finite scale data and nonzero current scales,
the diff skips animation iff both position deltas are within `1e-5` of 0
and both scale ratios are within `1e-5` of 1; a position delta of
exactly the tolerance still skips, while any delta strictly beyond it
animates. -/
theorem change_test_tolerance_iff :
    (∀ (old n : ChildData) (sx sy tx ty : ℚ),
        old.scaleX = .fin sx → old.scaleY = .fin sy →
        n.scaleX = .fin tx → n.scaleY = .fin ty → tx ≠ 0 → ty ≠ 0 →
        (shouldSkip (old.top - n.top) (old.left - n.left) old n = true ↔
          |old.top - n.top| ≤ 1 / 100000 ∧ |old.left - n.left| ≤ 1 / 100000 ∧
            |sx / tx - 1| ≤ 1 / 100000 ∧ |sy / ty - 1| ≤ 1 / 100000)) ∧
    shouldSkip ((unitAt (1 / 100000) 0).top - (unitAt 0 0).top)
      ((unitAt (1 / 100000) 0).left - (unitAt 0 0).left)
      (unitAt (1 / 100000) 0) (unitAt 0 0) = true ∧
    (∀ d : ℚ, 0 < d →
      shouldSkip ((unitAt (1 / 100000 + d) 0).top - (unitAt 0 0).top)
        ((unitAt (1 / 100000 + d) 0).left - (unitAt 0 0).left)
        (unitAt (1 / 100000 + d) 0) (unitAt 0 0) = false) := by
  refine ⟨?_, by decide, ?_⟩
  · intro old n sx sy tx ty h1 h2 h3 h4 htx hty
    simp only [shouldSkip, isCloseTo, h1, h2, h3, h4, JSNum.div, if_neg htx, if_neg hty,
      JSNum.sub, JSNum.jsabs, JSNum.jsle, defaultEpsilon, Bool.and_eq_true,
      decide_eq_true_eq, sub_zero]
    tauto
  · intro d hd
    have hgt : ¬(|(1 : ℚ) / 100000 + d - 0 - 0| ≤ 1 / 100000) := by
      rw [sub_zero, sub_zero, abs_of_pos (by positivity)]
      intro hle
      linarith
    simp only [shouldSkip, isCloseTo, unitAt, JSNum.sub, JSNum.jsabs, JSNum.jsle,
      defaultEpsilon, Bool.and_eq_true, decide_eq_true_eq]
    simp only [Bool.and_eq_false_iff, decide_eq_false_iff_not]
    left
    left
    left
    exact hgt

/-- C4 witness: the tolerance characterisation applied to the Scenario A
snapshots, and the boundary facts at `d = 1`. -/
theorem change_test_tolerance_iff_witness :
    (shouldSkip ((unitAt 0 0).top - (unitAt 0 100).top)
        ((unitAt 0 0).left - (unitAt 0 100).left) (unitAt 0 0) (unitAt 0 100) = true ↔
      |(unitAt 0 0).top - (unitAt 0 100).top| ≤ 1 / 100000 ∧
        |(unitAt 0 0).left - (unitAt 0 100).left| ≤ 1 / 100000 ∧
        |(1 : ℚ) / 1 - 1| ≤ 1 / 100000 ∧ |(1 : ℚ) / 1 - 1| ≤ 1 / 100000) ∧
    shouldSkip ((unitAt (1 / 100000 + 1) 0).top - (unitAt 0 0).top)
      ((unitAt (1 / 100000 + 1) 0).left - (unitAt 0 0).left)
      (unitAt (1 / 100000 + 1) 0) (unitAt 0 0) = false :=
  ⟨change_test_tolerance_iff.1 (unitAt 0 0) (unitAt 0 100) 1 1 1 1 rfl rfl rfl rfl
      (by decide) (by decide),
   change_test_tolerance_iff.2.2 1 (by decide)⟩

/-- C7: the claim asserts that an unparsable computed opacity is
recorded as 1.0.  It is not: `parseFloat(styles.opacity || '1')` only
substitutes the default for a falsy (empty) string, so the non-empty
unparsable string "abc" is recorded as NaN. -/
theorem unparsable_opacity_not_one :
    mapGet (collectChildData 0 0 [childBadOpacity]) "Z" =
      some (2, ⟨0, 0, JSNum.nan, .fin 1, .fin 1⟩) ∧
    JSNum.nan ≠ JSNum.fin 1 := by
  decide

/-- C7 (amended): the extractor records opacity 1.0 exactly when the
computed opacity string is unset (empty); a non-empty string is handed
to `parseFloat` unchanged, so an unparsable one is recorded as NaN
(extraction itself still completes without error). -/
theorem opacity_default_semantics (bT bL : ℚ) (e : Elem) :
    (e.opacity = "" → (childDataOf bT bL e).opacity = .fin 1) ∧
    (e.opacity ≠ "" → (childDataOf bT bL e).opacity = parseFloat e.opacity) ∧
    parseFloat "abc" = JSNum.nan := by
  refine ⟨?_, ?_, by decide⟩
  · intro h
    simp only [childDataOf, h, if_pos]
    decide
  · intro h
    simp [childDataOf, h]

/-- C7 witness: the default at an empty opacity string, and the
pass-through at the unparsable one. -/
theorem opacity_default_semantics_witness :
    (childDataOf 0 0 ⟨5, true, some "W", 0, 0, "none", ""⟩).opacity = .fin 1 ∧
    (childDataOf 0 0 childBadOpacity).opacity = parseFloat "abc" :=
  ⟨(opacity_default_semantics 0 0 ⟨5, true, some "W", 0, 0, "none", ""⟩).1 rfl,
   (opacity_default_semantics 0 0 childBadOpacity).2.1 (by decide)⟩

/-- C9: a child whose identity attribute is present but empty is
excluded from the collected snapshot exactly as if the attribute were
absent (the `!id` truthiness test does not distinguish the two). -/
theorem empty_id_excluded_like_missing (bT bL : ℚ) (m : SnapshotMap) (r : ℕ) (html : Bool)
    (t l : ℚ) (tf op : String) (rest : List Elem) :
    collectInto bT bL m (⟨r, html, some "", t, l, tf, op⟩ :: rest) =
      collectInto bT bL m rest ∧
    collectInto bT bL m (⟨r, html, none, t, l, tf, op⟩ :: rest) =
      collectInto bT bL m rest := by
  cases html <;> constructor <;> simp [collectInto]

lemma stripLit_append : ∀ (l cs r : List Char), stripLit l cs = some r → cs = l ++ r
  | [], cs, r, h => by
      simp [stripLit] at h
      simp [h]
  | _ :: _, [], _, h => by simp [stripLit] at h
  | l :: ls, c :: cs, r, h => by
      simp only [stripLit] at h
      by_cases hc : c = l
      · rw [if_pos hc] at h
        rw [hc, List.cons_append, stripLit_append ls cs r h]
      · rw [if_neg hc] at h
        exact absurd h (by simp)

lemma expectChar_eq (c : Char) (cs r : List Char) (h : expectChar c cs = some r) :
    cs = c :: r := by
  cases cs with
  | nil => simp [expectChar] at h
  | cons x xs =>
      simp only [expectChar] at h
      by_cases hx : x = c
      · rw [if_pos hx] at h
        simp at h
        rw [hx, h]
      · rw [if_neg hx] at h
        exact absurd h (by simp)

lemma numTokUnsigned_eq (cs t r : List Char) (h : numTokUnsigned cs = some (t, r)) :
    cs = t ++ r ∧ ∀ c ∈ t, c.isDigit = true ∨ c = '.' := by
  have hsplit : cs = cs.takeWhile Char.isDigit ++ cs.dropWhile Char.isDigit :=
    (List.takeWhile_append_dropWhile Char.isDigit cs).symm
  have hd1 : ∀ c ∈ cs.takeWhile Char.isDigit, c.isDigit = true ∨ c = '.' :=
    fun c hc => Or.inl (List.mem_takeWhile_imp hc)
  simp only [numTokUnsigned] at h
  rcases hdrop : cs.dropWhile Char.isDigit with _ | ⟨c0, r2⟩ <;> rw [hdrop] at h <;>
    dsimp only at h
  · by_cases he : cs.takeWhile Char.isDigit = []
    · rw [if_pos he] at h
      exact absurd h (by simp)
    · rw [if_neg he] at h
      simp only [Option.some.injEq, Prod.mk.injEq] at h
      obtain ⟨ht, hr⟩ := h
      subst ht hr
      exact ⟨hsplit.trans (by rw [hdrop]), hd1⟩
  · by_cases hc0 : c0 = '.'
    · rw [if_pos hc0] at h
      subst hc0
      by_cases he2 : r2.takeWhile Char.isDigit = []
      · rw [if_pos he2] at h
        by_cases he : cs.takeWhile Char.isDigit = []
        · rw [if_pos he] at h
          exact absurd h (by simp)
        · rw [if_neg he] at h
          simp only [Option.some.injEq, Prod.mk.injEq] at h
          obtain ⟨ht, hr⟩ := h
          subst ht hr
          exact ⟨hsplit.trans (by rw [hdrop]), hd1⟩
      · rw [if_neg he2] at h
        simp only [Option.some.injEq, Prod.mk.injEq] at h
        obtain ⟨ht, hr⟩ := h
        subst ht hr
        constructor
        · have h2 : r2 = r2.takeWhile Char.isDigit ++ r2.dropWhile Char.isDigit :=
            (List.takeWhile_append_dropWhile Char.isDigit r2).symm
          refine (hsplit.trans (by rw [hdrop])).trans ?_
          conv_lhs => rw [h2]
          simp [List.append_assoc]
        · intro c hc
          rcases List.mem_append.mp hc with h1 | h1
          · exact hd1 c h1
          · rcases List.mem_cons.mp h1 with h2 | h2
            · exact Or.inr h2
            · exact Or.inl (List.mem_takeWhile_imp h2)
    · rw [if_neg hc0] at h
      by_cases he : cs.takeWhile Char.isDigit = []
      · rw [if_pos he] at h
        exact absurd h (by simp)
      · rw [if_neg he] at h
        simp only [Option.some.injEq, Prod.mk.injEq] at h
        obtain ⟨ht, hr⟩ := h
        subst ht hr
        exact ⟨hsplit.trans (by rw [hdrop]), hd1⟩

lemma numTok_eq (cs t r : List Char) (h : numTok cs = some (t, r)) :
    cs = t ++ r ∧ ∀ c ∈ t, c.isDigit = true ∨ c = '.' ∨ c = '-' := by
  have weaken : ∀ (u : List Char), (∀ c ∈ u, c.isDigit = true ∨ c = '.') →
      ∀ c ∈ u, c.isDigit = true ∨ c = '.' ∨ c = '-' :=
    fun u hu c hc => (hu c hc).elim Or.inl (fun h2 => Or.inr (Or.inl h2))
  cases cs with
  | nil =>
      obtain ⟨h1, h2⟩ := numTokUnsigned_eq [] t r h
      exact ⟨h1, weaken t h2⟩
  | cons c0 rest =>
      by_cases hc0 : c0 = '-'
      · subst hc0
        simp only [numTok, Option.map_eq_some'] at h
        obtain ⟨⟨t0, r0⟩, hu, hmap⟩ := h
        simp only [Prod.mk.injEq] at hmap
        obtain ⟨ht, hr⟩ := hmap
        obtain ⟨h1, h2⟩ := numTokUnsigned_eq rest t0 r0 hu
        subst ht
        subst hr
        constructor
        · rw [h1]
          rfl
        · intro c hc
          rcases List.mem_cons.mp hc with h3 | h3
          · exact Or.inr (Or.inr h3)
          · exact weaken t0 h2 c h3
      · have hform : numTok (c0 :: rest) = numTokUnsigned (c0 :: rest) := by
          unfold numTok
          split
          · next heq => exact absurd (List.head_eq_of_cons_eq heq) hc0
          · rfl
        rw [hform] at h
        obtain ⟨h1, h2⟩ := numTokUnsigned_eq (c0 :: rest) t r h
        exact ⟨h1, weaken t h2⟩

lemma sepZero_eq (cs w r : List Char) (h : sepZero cs = some (w, r)) :
    cs = ',' :: (w ++ '0' :: r) ∧ ∀ c ∈ w, c.isWhitespace = true := by
  simp only [sepZero] at h
  cases hc : expectChar ',' cs with
  | none =>
      rw [hc] at h
      exact absurd h (by simp)
  | some cs1 =>
      rw [hc] at h
      dsimp only at h
      cases hc2 : expectChar '0' (cs1.dropWhile Char.isWhitespace) with
      | none =>
          rw [hc2] at h
          exact absurd h (by simp)
      | some cs3 =>
          rw [hc2] at h
          simp only [Option.some.injEq, Prod.mk.injEq] at h
          obtain ⟨hw, hr⟩ := h
          subst hw
          subst hr
          have e1 := expectChar_eq ',' cs cs1 hc
          have e2 := expectChar_eq '0' _ _ hc2
          have hsplit : cs1 =
              cs1.takeWhile Char.isWhitespace ++ cs1.dropWhile Char.isWhitespace :=
            (List.takeWhile_append_dropWhile Char.isWhitespace cs1).symm
          refine ⟨?_, fun c hc => List.mem_takeWhile_imp hc⟩
          rw [e1]
          congr 1
          exact hsplit.trans (by rw [e2])

lemma matchAt_eq (cs t1 t2 : List Char) (h : matchAt cs = some (t1, t2)) :
    ∃ w1 w2 w3 w4 w5 rest,
      (∀ c ∈ w1 ++ w2 ++ w3 ++ w4 ++ w5, c.isWhitespace = true) ∧
      (∀ c ∈ t1, c.isDigit = true ∨ c = '.' ∨ c = '-') ∧
      (∀ c ∈ t2, c.isDigit = true ∨ c = '.' ∨ c = '-') ∧
      cs = matrixShape t1 t2 w1 w2 w3 w4 w5 rest := by
  simp only [matchAt] at h
  cases h0 : stripLit matrixLit cs with
  | none => rw [h0] at h; simp at h
  | some cs0 =>
  rw [h0] at h
  dsimp only at h
  cases h1 : numTok cs0 with
  | none => rw [h1] at h; simp at h
  | some p1 =>
  obtain ⟨u1, cs1⟩ := p1
  rw [h1] at h
  dsimp only at h
  cases h2 : sepZero cs1 with
  | none => rw [h2] at h; simp at h
  | some p2 =>
  obtain ⟨w1, cs2⟩ := p2
  rw [h2] at h
  dsimp only at h
  cases h3 : sepZero cs2 with
  | none => rw [h3] at h; simp at h
  | some p3 =>
  obtain ⟨w2, cs3⟩ := p3
  rw [h3] at h
  dsimp only at h
  cases h4 : expectChar ',' cs3 with
  | none => rw [h4] at h; simp at h
  | some cs4 =>
  rw [h4] at h
  dsimp only at h
  cases h5 : numTok (cs4.dropWhile Char.isWhitespace) with
  | none => rw [h5] at h; simp at h
  | some p5 =>
  obtain ⟨u2, cs5⟩ := p5
  rw [h5] at h
  dsimp only at h
  cases h6 : sepZero cs5 with
  | none => rw [h6] at h; simp at h
  | some p6 =>
  obtain ⟨w4, cs6⟩ := p6
  rw [h6] at h
  dsimp only at h
  cases h7 : sepZero cs6 with
  | none => rw [h7] at h; simp at h
  | some p7 =>
  obtain ⟨w5, cs7⟩ := p7
  rw [h7] at h
  dsimp only at h
  cases h8 : expectChar ')' cs7 with
  | none => rw [h8] at h; simp at h
  | some cs8 =>
  rw [h8] at h
  simp only [Option.some.injEq, Prod.mk.injEq] at h
  obtain ⟨ht1, ht2⟩ := h
  subst ht1
  subst ht2
  have e0 := stripLit_append matrixLit cs cs0 h0
  obtain ⟨e1, e1c⟩ := numTok_eq cs0 u1 cs1 h1
  obtain ⟨e2, e2w⟩ := sepZero_eq cs1 w1 cs2 h2
  obtain ⟨e3, e3w⟩ := sepZero_eq cs2 w2 cs3 h3
  have e4 := expectChar_eq ',' cs3 cs4 h4
  obtain ⟨e5, e5c⟩ := numTok_eq _ u2 cs5 h5
  obtain ⟨e6, e6w⟩ := sepZero_eq cs5 w4 cs6 h6
  obtain ⟨e7, e7w⟩ := sepZero_eq cs6 w5 cs7 h7
  have e8 := expectChar_eq ')' cs7 cs8 h8
  obtain ⟨w3, hw3⟩ : ∃ w3, w3 = cs4.takeWhile Char.isWhitespace := ⟨_, rfl⟩
  have ecs4 : cs4 = w3 ++ (u2 ++ cs5) := by
    rw [hw3]
    conv_lhs => rw [← List.takeWhile_append_dropWhile Char.isWhitespace cs4]
    rw [e5]
  refine ⟨w1, w2, w3, w4, w5, cs8, ?_, e1c, e5c, ?_⟩
  · intro c hc
    simp only [List.mem_append] at hc
    rcases hc with (((hw | hw) | hw) | hw) | hw
    · exact e2w c hw
    · exact e3w c hw
    · rw [hw3] at hw
      exact List.mem_takeWhile_imp hw
    · exact e6w c hw
    · exact e7w c hw
  · rw [e0, e1, e2, e3, e4, ecs4, e6, e7, e8]
    simp [matrixShape, List.append_assoc]

lemma transformMatch_eq (cs t1 t2 : List Char) (h : transformMatch cs = some (t1, t2)) :
    ∃ pre w1 w2 w3 w4 w5 rest,
      (∀ c ∈ w1 ++ w2 ++ w3 ++ w4 ++ w5, c.isWhitespace = true) ∧
      (∀ c ∈ t1, c.isDigit = true ∨ c = '.' ∨ c = '-') ∧
      (∀ c ∈ t2, c.isDigit = true ∨ c = '.' ∨ c = '-') ∧
      cs = pre ++ matrixShape t1 t2 w1 w2 w3 w4 w5 rest := by
  induction cs with
  | nil => simp [transformMatch] at h
  | cons c rest0 ih =>
      simp only [transformMatch] at h
      cases hm : matchAt (c :: rest0) with
      | some p =>
          rw [hm] at h
          simp only [Option.some.injEq] at h
          obtain ⟨w1, w2, w3, w4, w5, rest, hw, hc1, hc2, hshape⟩ :=
            matchAt_eq (c :: rest0) t1 t2 (by rw [hm, h])
          exact ⟨[], w1, w2, w3, w4, w5, rest, hw, hc1, hc2, by simpa using hshape⟩
      | none =>
          rw [hm] at h
          obtain ⟨pre, w1, w2, w3, w4, w5, rest, hw, hc1, hc2, hshape⟩ := ih h
          exact ⟨c :: pre, w1, w2, w3, w4, w5, rest, hw, hc1, hc2, by
            rw [List.cons_append, ← hshape]⟩

/-- C10: scale extraction succeeds only on a transform containing a
matrix of the exact shape `matrix(a, 0, 0, d, 0, 0)` (literal-zero skew
and translation slots, numeric capture groups); any other transform
string — including a scale combined with a nonzero translation — leaves
the default tokens `'1.0'`, so both scales degrade to 1.0 without
failing. -/
theorem scale_extraction_requires_pure_scale_matrix :
    (∀ (cs t1 t2 : List Char), transformMatch cs = some (t1, t2) →
        ∃ pre w1 w2 w3 w4 w5 rest,
          (∀ c ∈ w1 ++ w2 ++ w3 ++ w4 ++ w5, c.isWhitespace = true) ∧
          (∀ c ∈ t1, c.isDigit = true ∨ c = '.' ∨ c = '-') ∧
          (∀ c ∈ t2, c.isDigit = true ∨ c = '.' ∨ c = '-') ∧
          cs = pre ++ matrixShape t1 t2 w1 w2 w3 w4 w5 rest) ∧
    (∀ s : String, transformMatch s.data = none →
        extractScaleTokens s = ("1.0", "1.0")) ∧
    extractScaleTokens "matrix(2, 0, 0, 2, 10, 0)" = ("1.0", "1.0") ∧
    (childDataOf 0 0 ⟨3, true, some "T", 0, 0, "matrix(2, 0, 0, 2, 10, 0)", "1"⟩).scaleX
      = .fin 1 ∧
    (childDataOf 0 0 ⟨3, true, some "T", 0, 0, "matrix(2, 0, 0, 2, 10, 0)", "1"⟩).scaleY
      = .fin 1 ∧
    (childDataOf 0 0 ⟨3, true, some "T", 0, 0, "matrix(2, 0, 0, 3, 0, 0)", "1"⟩).scaleX
      = .fin 2 ∧
    (childDataOf 0 0 ⟨3, true, some "T", 0, 0, "matrix(2, 0, 0, 3, 0, 0)", "1"⟩).scaleY
      = .fin 3 := by
  refine ⟨fun cs t1 t2 h => transformMatch_eq cs t1 t2 h, ?_,
    by decide, by decide, by decide, by decide, by decide⟩
  intro s h
  simp [extractScaleTokens, h]

/-- C10 witness: the shape decomposition applied to the concrete match
`matrix(2, 0, 0, 3, 0, 0)`. -/
theorem scale_extraction_requires_pure_scale_matrix_witness :
    ∃ pre w1 w2 w3 w4 w5 rest,
      (∀ c ∈ w1 ++ w2 ++ w3 ++ w4 ++ w5, c.isWhitespace = true) ∧
      (∀ c ∈ ['2'], c.isDigit = true ∨ c = '.' ∨ c = '-') ∧
      (∀ c ∈ ['3'], c.isDigit = true ∨ c = '.' ∨ c = '-') ∧
      "matrix(2, 0, 0, 3, 0, 0)".data =
        pre ++ matrixShape ['2'] ['3'] w1 w2 w3 w4 w5 rest :=
  scale_extraction_requires_pure_scale_matrix.1 "matrix(2, 0, 0, 3, 0, 0)".data
    ['2'] ['3'] (by decide)

end DomFlip
